import Mathlib

/-!
Verification of the WebRTC-VLM repository core components against its design
specification: the signaling relay (server/index.js, unnamed/part_005), the
peer-connection handlers (src/components/WebRTCStream.tsx,
src/pages/PhoneStream.tsx), the metrics collector (src/lib/metricsCollector.ts)
and the detection server (server/objectDetectionServer.js).
All definitions are shallow embeddings translated from the source files.
-/

namespace WebRTCVLM

/-! ### MetricsCollector (src/lib/metricsCollector.ts) -/

/-- Fractional part, modelling the JavaScript expression `index % 1` for the
nonnegative indices that arise in `calculatePercentile` (its only call sites
pass percentile 50 and 95 over a sorted latency list). -/
def jsMod1 (q : ℚ) : ℚ := q - ⌊q⌋

/-- Embedding of `MetricsCollector.calculatePercentile(sortedArray, percentile)`:
if the array is empty return 0; otherwise interpolate linearly between the
entries at the floor and ceiling of `percentile/100 * (length-1)`, returning the
last entry when the ceiling index falls off the end. -/
def calculatePercentile (sortedArray : List ℚ) (percentile : ℚ) : ℚ :=
  if sortedArray.length = 0 then 0
  else
    let index : ℚ := percentile / 100 * ((sortedArray.length : ℚ) - 1)
    let lower : ℤ := ⌊index⌋
    let upper : ℤ := ⌈index⌉
    let weight : ℚ := jsMod1 index
    if (sortedArray.length : ℤ) ≤ upper then
      sortedArray.getD (sortedArray.length - 1) 0
    else
      sortedArray.getD lower.toNat 0 * (1 - weight) +
        sortedArray.getD upper.toNat 0 * weight

/-- The percentile computation as the specification words it: interpolation
between the floor and ceiling entries weighted by the fractional part of
`p/100 * (n-1)`, with 0 on the empty list (no end clamp). Used to compare the
source's `calculatePercentile` against the spec sentence. -/
def specPercentile (sorted : List ℚ) (p : ℚ) : ℚ :=
  if sorted.length = 0 then 0
  else
    let idx : ℚ := p / 100 * ((sorted.length : ℚ) - 1)
    sorted.getD (⌊idx⌋).toNat 0 * (1 - jsMod1 idx) +
      sorted.getD (⌈idx⌉).toNat 0 * jsMod1 idx

/-- Per-frame record built by `recordFrame` (interface `FrameMetrics`). -/
structure FrameMetrics where
  frame_id : String
  capture_ts : Int
  recv_ts : Int
  inference_ts : Int
  display_ts : Int
  e2e_latency : Int
  server_latency : Int
  network_latency : Int
deriving DecidableEq, Repr

/-- Inbound analysis result consumed by `recordFrame` (interface
`DetectionResult`; the detection payload itself is not read by the collector). -/
structure DetectionResult where
  frame_id : String
  capture_ts : Int
  recv_ts : Int
  inference_ts : Int
deriving DecidableEq, Repr

/-- State of `MetricsCollector` relevant to the ring buffer: the
`frameMetrics` array and the monotonic `processedFrames` counter. -/
structure MetricsCollector where
  frameMetrics : List FrameMetrics
  processedFrames : ℕ
deriving DecidableEq, Repr

def MetricsCollector.start : MetricsCollector := ⟨[], 0⟩

/-- The `FrameMetrics` record assembled at the top of `recordFrame` from the
detection result and the current time `displayTs`. -/
def mkFrameMetrics (d : DetectionResult) (displayTs : Int) : FrameMetrics :=
  ⟨d.frame_id, d.capture_ts, d.recv_ts, d.inference_ts, displayTs,
    displayTs - d.capture_ts, d.inference_ts - d.recv_ts,
    d.recv_ts - d.capture_ts⟩

/-- Embedding of `MetricsCollector.recordFrame`: push the new record, bump the
counter, and if the buffer now exceeds 100 entries drop the oldest (shift). -/
def recordFrame (s : MetricsCollector) (d : DetectionResult) (displayTs : Int) :
    MetricsCollector :=
  let fm := s.frameMetrics ++ [mkFrameMetrics d displayTs]
  ⟨if 100 < fm.length then fm.tail else fm, s.processedFrames + 1⟩

/-- A whole run of `recordFrame` calls, each with its own arrival time. -/
def runRecord (s : MetricsCollector) (inputs : List (DetectionResult × Int)) :
    MetricsCollector :=
  inputs.foldl (fun acc di => recordFrame acc di.1 di.2) s

/-- The last `k` elements of a list (the FIFO window retained by the buffer). -/
def lastN (k : ℕ) (l : List α) : List α := l.drop (l.length - k)

/-- A batch of 101 insertions with distinguishable samples, for the concrete
overflow scenario of the ring buffer. -/
def inputs101 : List (DetectionResult × Int) :=
  (List.range 101).map fun i => (⟨"f", (i : Int), (i : Int), (i : Int)⟩, (i : Int))

/-! ### FrameDispatchGate (startProcessing in src/components/WebRTCStream.tsx)

The processing loop owns two closure variables, `isProcessing` and
`lastDetectionTime` (started at 0), and each `processFrame` iteration computes
`shouldRunDetection = (now - lastDetectionTime) >= DETECTION_INTERVAL &&
!isProcessing`; when it holds the iteration sets `isProcessing = true` and
`lastDetectionTime = now`, and the `finally` block clears `isProcessing`. -/

def DETECTION_INTERVAL : Int := 125

structure FrameGate where
  isProcessing : Bool
  lastDetectionTime : Int
deriving DecidableEq, Repr

def FrameGate.start : FrameGate := ⟨false, 0⟩

/-- Admission decision of one `processFrame` iteration: returns whether the
frame was dispatched together with the updated gate state. -/
def tryDispatch (s : FrameGate) (now : Int) : Bool × FrameGate :=
  let shouldRunDetection :=
    decide (DETECTION_INTERVAL ≤ now - s.lastDetectionTime) && !s.isProcessing
  if shouldRunDetection then (true, ⟨true, now⟩) else (false, s)

/-- The `finally` block of the dispatched iteration: clears `isProcessing`. -/
def FrameGate.release (s : FrameGate) : FrameGate := ⟨false, s.lastDetectionTime⟩

/-- A run of `processFrame` iterations at the given times with no intervening
release, counting how many were admitted. -/
def runDispatch (s : FrameGate) (nows : List Int) : FrameGate × ℕ :=
  nows.foldl (fun acc now =>
    let r := tryDispatch acc.1 now
    (r.2, acc.2 + if r.1 then 1 else 0)) (s, 0)

/-! ### Signaling-channel reconnection (websocket.onerror in WebRTCStream.tsx)

`onerror` schedules a timeout whose delay is `2 ^ reconnectAttempts * 1000`
milliseconds, computed before any increment; when the timer fires, a reconnect
(`initializeWebRTC`, which reports status `connecting`) happens only when
`reconnectAttempts < 5`, in which case the counter is incremented first. The
socket's `onclose` accompanying each failure reports status `disconnected`;
`onopen` of a successful connection resets the counter. -/

inductive ConnStatus where
  | disconnected
  | connecting
  | connected
deriving DecidableEq, Repr

structure ReconnState where
  reconnectAttempts : ℕ
  status : ConnStatus
deriving DecidableEq, Repr

/-- State right after the first `initializeWebRTC` call. -/
def ReconnState.start : ReconnState := ⟨0, ConnStatus.connecting⟩

/-- One complete failure cycle on the signaling channel: the error and close
handlers fire (status becomes `disconnected`), then the scheduled timer fires
and retries only below the cap of 5; returns the new state and the delay (ms)
of the performed reconnect attempt, when one happens. -/
def errorCycle (s : ReconnState) : ReconnState × Option ℕ :=
  let delay := 2 ^ s.reconnectAttempts * 1000
  if s.reconnectAttempts < 5 then
    (⟨s.reconnectAttempts + 1, ConnStatus.connecting⟩, some delay)
  else
    (⟨s.reconnectAttempts, ConnStatus.disconnected⟩, none)

/-- A run of `n` consecutive failure cycles with no intervening successful
connection, collecting the delays of the reconnect attempts performed. -/
def runErrorCycles : ℕ → ReconnState × List ℕ
  | 0 => (ReconnState.start, [])
  | n + 1 =>
      let r := runErrorCycles n
      let r' := errorCycle r.1
      (r'.1, r.2 ++ r'.2.toList)

/-! ### ICE candidate-failure policy (WebRTCStream.tsx)

`oniceconnectionstatechange` increments `iceFailureCount` and calls
`restartIce()` on every transition to `failed`, and resets the counter to 0 on
`connected`. The `ice-candidate` branch of `websocket.onmessage` applies the
candidate and, should `addIceCandidate` throw, calls `restartIce()` only when
`iceFailureCount > 3` — the catch block does not touch the counter. -/

inductive IceEvent where
  | iceFailed
  | iceConnected
  | candError
deriving DecidableEq, BEq, Repr

structure IceState where
  iceFailureCount : ℕ
deriving DecidableEq, Repr

/-- Effect of one event on the failure counter, together with the number of
`restartIce` calls it triggers. -/
def iceStep (s : IceState) : IceEvent → IceState × ℕ
  | .iceFailed => (⟨s.iceFailureCount + 1⟩, 1)
  | .iceConnected => (⟨0⟩, 0)
  | .candError => (s, if 3 < s.iceFailureCount then 1 else 0)

def runIce (evs : List IceEvent) : IceState × ℕ :=
  evs.foldl (fun acc e =>
    let r := iceStep acc.1 e
    (r.1, acc.2 + r.2)) (⟨0⟩, 0)

/-- Number of `iceFailed` events after the most recent `iceConnected`. -/
def failedSinceConnected (evs : List IceEvent) : ℕ :=
  (evs.reverse.takeWhile fun e => decide (e ≠ IceEvent.iceConnected)).countP
    fun e => decide (e = IceEvent.iceFailed)

inductive RestartOutcome where
  | restartedInPlace
  | fullReinit
deriving DecidableEq, Repr

/-- Embedding of `restartIce`: `restartIce()` on the peer connection, falling
back to a full `initializeWebRTC()` re-initialization when the call throws. -/
def restartIceCall (restartThrows : Bool) : RestartOutcome :=
  if restartThrows then RestartOutcome.fullReinit
  else RestartOutcome.restartedInPlace

/-! ### Candidate application order (PhoneStream.tsx websocket.onmessage)

The `offer` branch applies the remote description (then answers); the
`ice-candidate` branch calls `addIceCandidate` immediately, inside a
try/catch whose handler only logs. The browser-side handler in
WebRTCStream.tsx follows the same immediate-application pattern with
`answer` in place of `offer`. Each applied candidate is recorded together
with the value of the remote-description flag at application time. -/

inductive PhoneMsg where
  | offer
  | iceCandidate (c : ℕ)
  | other
deriving DecidableEq, Repr

structure PhonePeer where
  remoteDescSet : Bool
  applied : List (ℕ × Bool)
deriving DecidableEq, Repr

def phoneOnMessage (s : PhonePeer) : PhoneMsg → PhonePeer
  | .offer => ⟨true, s.applied⟩
  | .iceCandidate c => ⟨s.remoteDescSet, s.applied ++ [(c, s.remoteDescSet)]⟩
  | .other => s

def runPhone (msgs : List PhoneMsg) : PhonePeer :=
  msgs.foldl phoneOnMessage ⟨false, []⟩

/-- The candidates carried by a message sequence, in arrival order. -/
def candidatesOf (msgs : List PhoneMsg) : List ℕ :=
  msgs.filterMap fun m =>
    match m with
    | .iceCandidate c => some c
    | _ => none

/-! ### Session registry and relay (unnamed/part_005 and server/index.js)

Both servers keep `roomConnections : Map roomId (Array ws)`; every
`handleStartStream` uses the fixed id `'main-room'`. The part_005 variant
first splices out any existing connection with the registering role, pushes
the new socket, and schedules a deferred check that sends `create-offer` to
the browser client whenever a phone and a browser client are both present.
The server/index.js variant pushes without deduplication and checks
synchronously, sending `create-offer` to the registering socket only when
that socket's role is `'browser'`. The `ws.on('close')` handler splices the
socket out of its room and deletes the room when it becomes empty. Sockets
are modelled as an id plus the role property assigned at registration. -/

structure Conn where
  id : ℕ
  role : String
deriving DecidableEq, Repr

abbrev Room := List Conn

abbrev Registry := List (String × Room)

def getRoom (reg : Registry) (roomId : String) : Room :=
  ((reg.find? fun p => p.1 == roomId).map Prod.snd).getD []

def setRoom (reg : Registry) (roomId : String) (r : Room) : Registry :=
  reg.map fun p => if p.1 == roomId then (p.1, r) else p

def ensureRoom (reg : Registry) (roomId : String) : Registry :=
  if (reg.find? fun p => p.1 == roomId).isSome then reg
  else reg ++ [(roomId, [])]

/-- part_005 `handleStartStream`, registration part: ensure the room exists,
remove any existing client with the same role, push the new client. -/
def register005 (reg : Registry) (c : Conn) : Registry :=
  let reg1 := ensureRoom reg "main-room"
  setRoom reg1 "main-room"
    ((getRoom reg1 "main-room").eraseP (fun cl => cl.role == c.role) ++ [c])

/-- A `create-offer` instruction sent to the connection with the given id. -/
structure Emit where
  target : ℕ
deriving DecidableEq, Repr

/-- part_005's deferred check (the `setTimeout` body): when both a phone and
a browser client are present, send `create-offer` to the browser client. -/
def checkRoom (reg : Registry) : List Emit :=
  let conns := getRoom reg "main-room"
  match conns.find? (fun cl => cl.role == "phone"),
      conns.find? (fun cl => cl.role == "browser") with
  | some p, some b => if p ≠ b then [⟨b.id⟩] else []
  | _, _ => []

/-- server/index.js `handleStartStream`: push the socket, then synchronously
send `create-offer` to it when both roles are present and the registering
socket itself is the browser. -/
def registerIndex (reg : Registry) (c : Conn) : Registry × List Emit :=
  let reg1 := ensureRoom reg "main-room"
  let conns := getRoom reg1 "main-room" ++ [c]
  let reg2 := setRoom reg1 "main-room" conns
  let emits :=
    match conns.find? (fun cl => cl.role == "phone"),
        conns.find? (fun cl => cl.role == "browser") with
    | some p, some b =>
        if p ≠ b ∧ c.role = "browser" then [Emit.mk c.id] else []
    | _, _ => []
  (reg2, emits)

/-- The `ws.on('close')` handler: splice the socket out of every room that
holds it and delete rooms left empty. -/
def closeConn (reg : Registry) (i : ℕ) : Registry :=
  (reg.map fun p => (p.1, p.2.eraseP fun cl => cl.id == i)).filter
    fun p => !p.2.isEmpty

inductive RelayEv where
  | reg (c : Conn)
  | timerFire
  | close (i : ℕ)
deriving DecidableEq, Repr

structure RelayState where
  rooms : Registry
  pending : ℕ
  emitted : List Emit
deriving DecidableEq, Repr

def RelayState.start : RelayState := ⟨[], 0, []⟩

/-- part_005 relay semantics: a registration also schedules one deferred
check; a `timerFire` event runs the oldest pending check against the current
room state. -/
def relayStep005 (s : RelayState) : RelayEv → RelayState
  | .reg c => ⟨register005 s.rooms c, s.pending + 1, s.emitted⟩
  | .timerFire =>
      if s.pending = 0 then s
      else ⟨s.rooms, s.pending - 1, s.emitted ++ checkRoom s.rooms⟩
  | .close i => ⟨closeConn s.rooms i, s.pending, s.emitted⟩

def run005 (evs : List RelayEv) : RelayState :=
  evs.foldl relayStep005 RelayState.start

/-- server/index.js relay semantics: the registration check is synchronous. -/
def relayStepIndex (s : RelayState) : RelayEv → RelayState
  | .reg c =>
      let r := registerIndex s.rooms c
      ⟨r.1, s.pending, s.emitted ++ r.2⟩
  | .timerFire => s
  | .close i => ⟨closeConn s.rooms i, s.pending, s.emitted⟩

def runIndex (evs : List RelayEv) : RelayState :=
  evs.foldl relayStepIndex RelayState.start

/-! ### Object detection server (server/objectDetectionServer.js)

`detectObjects` computes `inference_ts`, runs the inference collaborator
inside a try/catch, and on any failure returns a response that preserves the
request's `frame_id`, `capture_ts` and `recv_ts` with an empty detection
list; no exception escapes. -/

structure Detection where
  label : String
  score : ℚ
  xmin : ℚ
  ymin : ℚ
  xmax : ℚ
  ymax : ℚ
deriving DecidableEq, Repr

structure DetectMeta where
  frame_id : String
  capture_ts : Int
  recv_ts : Int
deriving DecidableEq, Repr

structure DetectResponse where
  frame_id : String
  capture_ts : Int
  recv_ts : Int
  inference_ts : Int
  detections : List Detection
deriving DecidableEq, Repr

def detectObjects (inferenceResult : Except String (List Detection))
    (metadata : DetectMeta) (inference_ts : Int) : DetectResponse :=
  match inferenceResult with
  | .ok ds =>
      ⟨metadata.frame_id, metadata.capture_ts, metadata.recv_ts,
        inference_ts, ds⟩
  | .error _ =>
      ⟨metadata.frame_id, metadata.capture_ts, metadata.recv_ts,
        inference_ts, []⟩

/-- Registry invariant of the part_005 relay: the registry is empty or holds
the single room `main-room`, whose clients carry pairwise-distinct roles and
which is never empty. -/
def Reg8Inv (reg : Registry) : Prop :=
  reg = [] ∨ ∃ r : Room, reg = [("main-room", r)] ∧
    r.Pairwise (fun a b => a.role ≠ b.role) ∧ r ≠ []

/-- Weaker shape invariant shared by both relay variants: at most the single
room `main-room` exists. -/
def RegShape (reg : Registry) : Prop :=
  reg = [] ∨ ∃ r : Room, reg = [("main-room", r)]

/-! ## Supporting lemmas -/

lemma calculatePercentile_eq_spec (l : List ℚ) (p : ℚ) (hp0 : 0 ≤ p)
    (hp1 : p ≤ 100) : calculatePercentile l p = specPercentile l p := by
  rcases eq_or_ne l.length 0 with h | h
  · simp [calculatePercentile, specPercentile, h]
  · have hn : 1 ≤ l.length := Nat.one_le_iff_ne_zero.mpr h
    have hnn : (1 : ℚ) ≤ (l.length : ℚ) := by exact_mod_cast hn
    have hdiv : p / 100 ≤ 1 := (div_le_one (by norm_num)).mpr hp1
    have hdiv0 : 0 ≤ p / 100 := by positivity
    have hidx : p / 100 * ((l.length : ℚ) - 1) ≤ (((l.length : ℤ) - 1 : ℤ) : ℚ) := by
      push_cast
      nlinarith
    have hceil : ⌈p / 100 * ((l.length : ℚ) - 1)⌉ ≤ (l.length : ℤ) - 1 :=
      Int.ceil_le.mpr hidx
    have hguard : ¬ ((l.length : ℤ) ≤ ⌈p / 100 * ((l.length : ℚ) - 1)⌉) := by
      omega
    simp only [calculatePercentile, specPercentile, if_neg h, if_neg hguard]

lemma lastN_eq_reverse_take (k : ℕ) (l : List α) :
    lastN k l = (l.reverse.take k).reverse := by
  rw [lastN, List.reverse_take, List.reverse_reverse, List.length_reverse]

lemma lastN_of_le (k : ℕ) (l : List α) (h : l.length ≤ k) : lastN k l = l := by
  rw [lastN, Nat.sub_eq_zero_of_le h, List.drop_zero]

lemma lastN_length (k : ℕ) (l : List α) : (lastN k l).length = min l.length k := by
  simp [lastN]
  omega

lemma lastN_append (k : ℕ) (A B : List α) :
    lastN k (lastN k A ++ B) = lastN k (A ++ B) := by
  simp only [lastN_eq_reverse_take, List.reverse_append, List.reverse_reverse,
    List.take_append_eq_append_take, List.take_take, List.length_reverse,
    List.length_take]
  have hm : min (k - B.length) k = k - B.length := Nat.min_eq_left (Nat.sub_le _ _)
  rw [hm]

lemma recordFrame_frames (s : MetricsCollector) (d : DetectionResult) (t : Int)
    (h : s.frameMetrics.length ≤ 100) :
    (recordFrame s d t).frameMetrics =
      lastN 100 (s.frameMetrics ++ [mkFrameMetrics d t]) := by
  rw [recordFrame]
  rcases Nat.lt_or_ge s.frameMetrics.length 100 with hlt | hge
  · have hle : (s.frameMetrics ++ [mkFrameMetrics d t]).length ≤ 100 := by
      simp
      omega
    simp only [if_neg
      (by omega : ¬ 100 < (s.frameMetrics ++ [mkFrameMetrics d t]).length)]
    exact (lastN_of_le _ _ hle).symm
  · have heq : s.frameMetrics.length = 100 := le_antisymm h hge
    have hlen : (s.frameMetrics ++ [mkFrameMetrics d t]).length = 101 := by
      simp [heq]
    simp only [if_pos
      (by omega : 100 < (s.frameMetrics ++ [mkFrameMetrics d t]).length)]
    rw [lastN, hlen]
    simp [List.drop_one]

lemma runRecord_general (inputs : List (DetectionResult × Int)) :
    ∀ (s : MetricsCollector), s.frameMetrics.length ≤ 100 →
    (runRecord s inputs).frameMetrics =
        lastN 100 (s.frameMetrics ++ inputs.map fun di => mkFrameMetrics di.1 di.2) ∧
      (runRecord s inputs).processedFrames = s.processedFrames + inputs.length := by
  induction inputs with
  | nil =>
      intro s h
      simp [runRecord, lastN_of_le _ _ h]
  | cons x xs ih =>
      intro s h
      have hstep : (recordFrame s x.1 x.2).frameMetrics =
          lastN 100 (s.frameMetrics ++ [mkFrameMetrics x.1 x.2]) :=
        recordFrame_frames s x.1 x.2 h
      have hlen : (recordFrame s x.1 x.2).frameMetrics.length ≤ 100 := by
        rw [hstep, lastN_length]
        omega
      have hrun : runRecord s (x :: xs) = runRecord (recordFrame s x.1 x.2) xs := rfl
      obtain ⟨h1, h2⟩ := ih (recordFrame s x.1 x.2) hlen
      constructor
      · rw [hrun, h1, hstep, lastN_append]
        simp
      · rw [hrun, h2]
        have hpf : (recordFrame s x.1 x.2).processedFrames = s.processedFrames + 1 := rfl
        rw [hpf]
        simp [List.length_cons]
        omega

lemma dispatch_stuck (nows : List Int) :
    ∀ (s : FrameGate) (k : ℕ), s.isProcessing = true →
    nows.foldl (fun acc now =>
      let r := tryDispatch acc.1 now
      (r.2, acc.2 + if r.1 then 1 else 0)) (s, k) = (s, k) := by
  induction nows with
  | nil => intro s k _; rfl
  | cons now ns ih =>
      intro s k h
      have hstep : tryDispatch s now = (false, s) := by
        simp [tryDispatch, h]
      simp only [List.foldl_cons, hstep]
      exact ih s k h

lemma tryDispatch_admitted (s : FrameGate) (now : Int)
    (h : (tryDispatch s now).1 = true) :
    tryDispatch s now = (true, ⟨true, now⟩) := by
  rw [tryDispatch] at h ⊢
  by_cases hc : (decide (DETECTION_INTERVAL ≤ now - s.lastDetectionTime)
      && !s.isProcessing) = true
  · simp [hc]
  · simp [hc] at h

lemma dispatch_count (nows : List Int) :
    ∀ (s : FrameGate) (k : ℕ),
    (nows.foldl (fun acc now =>
      let r := tryDispatch acc.1 now
      (r.2, acc.2 + if r.1 then 1 else 0)) (s, k)).2 ≤ k + 1 := by
  induction nows with
  | nil => intro s k; exact Nat.le_succ k
  | cons now ns ih =>
      intro s k
      rcases hadm : (tryDispatch s now).1 with _ | _
      · have hpair : tryDispatch s now = (false, (tryDispatch s now).2) := by
          rw [← hadm]
        rw [List.foldl_cons]
        conv_lhs => rw [hpair]
        simpa using ih (tryDispatch s now).2 k
      · have hpair : tryDispatch s now = (true, ⟨true, now⟩) :=
          tryDispatch_admitted s now hadm
        rw [List.foldl_cons]
        conv_lhs => rw [hpair]
        simpa using le_of_eq
          (congrArg Prod.snd (dispatch_stuck ns ⟨true, now⟩ (k + 1) rfl))

lemma runDispatch_le_one (s : FrameGate) (nows : List Int) :
    (runDispatch s nows).2 ≤ 1 := by
  simpa using dispatch_count nows s 0

lemma runErrorCycles_spec (n : ℕ) :
    (runErrorCycles n).1.reconnectAttempts = min n 5 ∧
    (runErrorCycles n).2 = (List.range (min n 5)).map (fun k => 2 ^ k * 1000) ∧
    (runErrorCycles n).1.status =
      (if n ≤ 5 then ConnStatus.connecting else ConnStatus.disconnected) := by
  induction n with
  | zero => simp [runErrorCycles, ReconnState.start]
  | succ n ih =>
      obtain ⟨h1, h2, h3⟩ := ih
      by_cases hn : n < 5
      · have hmin : min n 5 = n := Nat.min_eq_left (Nat.le_of_lt hn)
        have hmin' : min (n + 1) 5 = n + 1 := Nat.min_eq_left hn
        have hcyc : errorCycle (runErrorCycles n).1 =
            (⟨n + 1, ConnStatus.connecting⟩, some (2 ^ n * 1000)) := by
          rw [errorCycle]
          rw [h1, hmin]
          simp [hn]
        refine ⟨?_, ?_, ?_⟩
        · show (errorCycle (runErrorCycles n).1).1.reconnectAttempts = min (n + 1) 5
          rw [hcyc, hmin']
        · show (runErrorCycles n).2 ++ (errorCycle (runErrorCycles n).1).2.toList =
            (List.range (min (n + 1) 5)).map (fun k => 2 ^ k * 1000)
          rw [hcyc, h2, hmin, hmin', List.range_succ]
          simp
        · show (errorCycle (runErrorCycles n).1).1.status =
            (if n + 1 ≤ 5 then ConnStatus.connecting else ConnStatus.disconnected)
          rw [hcyc]
          simp [Nat.succ_le_of_lt hn]
      · have hge : 5 ≤ n := Nat.le_of_not_lt hn
        have hmin : min n 5 = 5 := Nat.min_eq_right hge
        have hmin' : min (n + 1) 5 = 5 := Nat.min_eq_right (Nat.le_succ_of_le hge)
        have hcyc : errorCycle (runErrorCycles n).1 =
            (⟨5, ConnStatus.disconnected⟩, none) := by
          rw [errorCycle]
          rw [h1, hmin]
          simp
        refine ⟨?_, ?_, ?_⟩
        · show (errorCycle (runErrorCycles n).1).1.reconnectAttempts = min (n + 1) 5
          rw [hcyc, hmin']
        · show (runErrorCycles n).2 ++ (errorCycle (runErrorCycles n).1).2.toList =
            (List.range (min (n + 1) 5)).map (fun k => 2 ^ k * 1000)
          rw [hcyc, h2, hmin, hmin']
          simp
        · show (errorCycle (runErrorCycles n).1).1.status =
            (if n + 1 ≤ 5 then ConnStatus.connecting else ConnStatus.disconnected)
          rw [hcyc]
          have hgt : ¬ (n + 1 ≤ 5) := by omega
          simp [hgt]

lemma runIce_append (l : List IceEvent) (e : IceEvent) :
    runIce (l ++ [e]) =
      ((iceStep (runIce l).1 e).1, (runIce l).2 + (iceStep (runIce l).1 e).2) := by
  rw [runIce, List.foldl_append]
  rfl

lemma failedSinceConnected_append (l : List IceEvent) (e : IceEvent) :
    failedSinceConnected (l ++ [e]) =
      (if e = IceEvent.iceConnected then 0
       else (if e = IceEvent.iceFailed then 1 else 0) + failedSinceConnected l) := by
  rw [failedSinceConnected, List.reverse_append]
  rcases e with _ | _ | _ <;>
    simp [failedSinceConnected, List.takeWhile, List.countP_cons] <;> omega

lemma runIce_count (evs : List IceEvent) :
    (runIce evs).1.iceFailureCount = failedSinceConnected evs := by
  induction evs using List.reverseRecOn with
  | nil => rfl
  | append_singleton l e ih =>
      rw [runIce_append, failedSinceConnected_append]
      rcases e with _ | _ | _ <;> simp [iceStep, ih] <;> omega

lemma runIce_candError_only (n : ℕ) :
    runIce (List.replicate n IceEvent.candError) = (⟨0⟩, 0) := by
  induction n with
  | zero => rfl
  | succ n ih =>
      rw [List.replicate_succ', runIce_append, ih]
      rfl

lemma runPhone_applied (msgs : List PhoneMsg) :
    ∀ (s : PhonePeer),
    ((msgs.foldl phoneOnMessage s).applied.map Prod.fst) =
      s.applied.map Prod.fst ++ candidatesOf msgs := by
  induction msgs with
  | nil => intro s; simp [candidatesOf]
  | cons m ms ih =>
      intro s
      rcases m with _ | c | _
      · simpa [phoneOnMessage, candidatesOf] using ih ⟨true, s.applied⟩
      · have hrec := ih ⟨s.remoteDescSet, s.applied ++ [(c, s.remoteDescSet)]⟩
        simp [phoneOnMessage, candidatesOf] at hrec ⊢
        rw [hrec]
      · simpa [phoneOnMessage, candidatesOf] using ih s

lemma eraseP_role_roles (r : Room) (ro : String)
    (h : r.Pairwise (fun a b => a.role ≠ b.role)) :
    ∀ x ∈ r.eraseP (fun cl => cl.role == ro), x.role ≠ ro := by
  induction r with
  | nil => simp
  | cons a tl ih =>
      rw [List.eraseP_cons]
      rcases List.pairwise_cons.mp h with ⟨ha, htl⟩
      by_cases hb : (a.role == ro) = true
      · have haro : a.role = ro := by simpa using hb
        simp only [hb, if_pos]
        intro x hx
        rw [← haro]
        exact (ha x hx).symm
      · have hbf : (a.role == ro) = false := by
          simpa using hb
        simp only [hbf]
        intro x hx
        rcases List.mem_cons.mp hx with rfl | hx'
        · simpa using hb
        · exact ih htl x hx'

lemma register005_eq (r : Room) (c : Conn) :
    register005 [("main-room", r)] c =
      [("main-room", r.eraseP (fun cl => cl.role == c.role) ++ [c])] := by
  simp [register005, ensureRoom, getRoom, setRoom, List.find?]

lemma register005_nil (c : Conn) : register005 [] c = [("main-room", [c])] := by
  simp [register005, ensureRoom, getRoom, setRoom, List.find?]

lemma register005_inv (reg : Registry) (c : Conn) (h : Reg8Inv reg) :
    Reg8Inv (register005 reg c) := by
  rcases h with rfl | ⟨r, rfl, hpw, hne⟩
  · rw [register005_nil]
    exact Or.inr ⟨[c], rfl, List.pairwise_singleton _ _, by simp⟩
  · rw [register005_eq]
    refine Or.inr ⟨_, rfl, ?_, by simp⟩
    refine List.pairwise_append.mpr ⟨hpw.sublist (List.eraseP_sublist _),
      List.pairwise_singleton _ _, ?_⟩
    intro x hx y hy
    rw [List.mem_singleton.mp hy]
    exact eraseP_role_roles r c.role hpw x hx

lemma closeConn_inv (reg : Registry) (i : ℕ) (h : Reg8Inv reg) :
    Reg8Inv (closeConn reg i) := by
  rcases h with rfl | ⟨r, rfl, hpw, _⟩
  · exact Or.inl rfl
  · rw [closeConn]
    by_cases hemp : (r.eraseP (fun cl => cl.id == i)).isEmpty = true
    · left
      simp [hemp]
    · right
      refine ⟨r.eraseP (fun cl => cl.id == i), ?_,
        hpw.sublist (List.eraseP_sublist _), ?_⟩
      · simp [hemp]
      · intro hc
        rw [hc] at hemp
        simp at hemp

lemma run005_inv (evs : List RelayEv) : Reg8Inv (run005 evs).rooms := by
  suffices h : ∀ s : RelayState, Reg8Inv s.rooms →
      Reg8Inv (evs.foldl relayStep005 s).rooms from h RelayState.start (Or.inl rfl)
  induction evs with
  | nil => intro s h; exact h
  | cons e es ih =>
      intro s h
      rw [List.foldl_cons]
      rcases e with c | _ | i
      · exact ih _ (register005_inv _ _ h)
      · have hrooms : (relayStep005 s RelayEv.timerFire).rooms = s.rooms := by
          rw [relayStep005]
          by_cases hp : s.pending = 0 <;> simp [hp]
        exact ih _ (hrooms ▸ h)
      · exact ih _ (closeConn_inv _ _ h)

lemma Reg8Inv.shape {reg : Registry} (h : Reg8Inv reg) : RegShape reg := by
  rcases h with rfl | ⟨r, rfl, _, _⟩
  · exact Or.inl rfl
  · exact Or.inr ⟨r, rfl⟩

lemma registerIndex_nil (c : Conn) :
    (registerIndex [] c).1 = [("main-room", [c])] := by
  simp [registerIndex, ensureRoom, getRoom, setRoom, List.find?]

lemma registerIndex_eq (r : Room) (c : Conn) :
    (registerIndex [("main-room", r)] c).1 = [("main-room", r ++ [c])] := by
  simp [registerIndex, ensureRoom, getRoom, setRoom, List.find?]

lemma closeConn_shape (reg : Registry) (i : ℕ) (h : RegShape reg) :
    RegShape (closeConn reg i) := by
  rcases h with rfl | ⟨r, rfl⟩
  · exact Or.inl rfl
  · rw [closeConn]
    by_cases hemp : (r.eraseP (fun cl => cl.id == i)).isEmpty = true
    · left
      simp [hemp]
    · right
      exact ⟨r.eraseP (fun cl => cl.id == i), by simp [hemp]⟩

lemma runIndex_shape (evs : List RelayEv) : RegShape (runIndex evs).rooms := by
  suffices h : ∀ s : RelayState, RegShape s.rooms →
      RegShape (evs.foldl relayStepIndex s).rooms from
    h RelayState.start (Or.inl rfl)
  induction evs with
  | nil => intro s h; exact h
  | cons e es ih =>
      intro s h
      rw [List.foldl_cons]
      rcases e with c | _ | i
      · refine ih _ ?_
        show RegShape (registerIndex s.rooms c).1
        rcases h with hnil | ⟨r, hr⟩
        · rw [hnil, registerIndex_nil]
          exact Or.inr ⟨[c], rfl⟩
        · rw [hr, registerIndex_eq]
          exact Or.inr ⟨r ++ [c], rfl⟩
      · exact ih _ h
      · exact ih _ (closeConn_shape _ _ h)

lemma checkRoom_browser (reg : Registry) (e : Emit) (h : e ∈ checkRoom reg) :
    ∃ b ∈ getRoom reg "main-room", b.role = "browser" ∧ e.target = b.id := by
  rw [checkRoom] at h
  rcases hp : (getRoom reg "main-room").find? (fun cl => cl.role == "phone")
    with _ | p
  · rw [hp] at h
    simp at h
  · rcases hb : (getRoom reg "main-room").find? (fun cl => cl.role == "browser")
      with _ | b
    · rw [hp, hb] at h
      simp at h
    · rw [hp, hb] at h
      have h' : e ∈ (if p ≠ b then [Emit.mk b.id] else []) := h
      by_cases hne : p ≠ b
      · rw [if_pos hne] at h'
        rw [List.mem_singleton.mp h']
        refine ⟨b, List.mem_of_find?_eq_some hb, ?_, rfl⟩
        have hfind := List.find?_some hb
        simpa using hfind
      · rw [if_neg hne] at h'
        simp at h'

lemma runIndex_producer_first (i j : ℕ) :
    (runIndex [RelayEv.reg ⟨i, "phone"⟩, RelayEv.reg ⟨j, "browser"⟩]).emitted =
      [⟨j⟩] := by
  simp [runIndex, relayStepIndex, registerIndex, ensureRoom, getRoom, setRoom,
    RelayState.start, List.find?, Conn.mk.injEq]

lemma runIndex_consumer_first (i j : ℕ) :
    (runIndex [RelayEv.reg ⟨j, "browser"⟩, RelayEv.reg ⟨i, "phone"⟩]).emitted =
      [] := by
  simp [runIndex, relayStepIndex, registerIndex, ensureRoom, getRoom, setRoom,
    RelayState.start, List.find?, Conn.mk.injEq]

/-! ## Claim theorems -/

set_option maxRecDepth 8000

/-- Claim C1, counterexample: the claim that two distinct-role registrations
in either order always yield exactly one create-offer to the consumer fails
on both relay variants. In server/index.js, registering the browser first and
the phone second emits no create-offer at all; in part_005, registering phone
then browser with both deferred checks firing afterwards emits the
create-offer to the browser twice. -/
theorem relay_create_offer_counterexample :
    (runIndex [RelayEv.reg ⟨1, "browser"⟩, RelayEv.reg ⟨2, "phone"⟩]).emitted
        = [] ∧
    (run005 [RelayEv.reg ⟨1, "phone"⟩, RelayEv.reg ⟨2, "browser"⟩,
        RelayEv.timerFire, RelayEv.timerFire]).emitted = [⟨2⟩, ⟨2⟩] := by
  exact ⟨by decide, by decide⟩

/-- Claim C1, amended: every create-offer the relay emits is addressed to a
browser-role (consumer) connection. In the server/index.js relay the check is
synchronous at registration: producer-then-consumer emits exactly one
create-offer to the consumer, while consumer-then-producer emits none. In the
part_005 relay, each deferred check emits only to a browser-role client of
the room. -/
theorem relay_create_offer_routing :
    (∀ i j : ℕ,
      (runIndex [RelayEv.reg ⟨i, "phone"⟩, RelayEv.reg ⟨j, "browser"⟩]).emitted
        = [⟨j⟩]) ∧
    (∀ i j : ℕ,
      (runIndex [RelayEv.reg ⟨j, "browser"⟩, RelayEv.reg ⟨i, "phone"⟩]).emitted
        = []) ∧
    (∀ (reg : Registry) (e : Emit), e ∈ checkRoom reg →
      ∃ b ∈ getRoom reg "main-room", b.role = "browser" ∧ e.target = b.id) :=
  ⟨runIndex_producer_first, runIndex_consumer_first, checkRoom_browser⟩

/-- Witness for C1's amended theorem at a concrete room. -/
theorem relay_create_offer_routing_witness :
    Emit.mk 2 ∈
      checkRoom [("main-room", [Conn.mk 1 "phone", Conn.mk 2 "browser"])] ∧
    ∃ b ∈ getRoom [("main-room", [Conn.mk 1 "phone", Conn.mk 2 "browser"])]
        "main-room", b.role = "browser" ∧ (Emit.mk 2).target = b.id :=
  ⟨by decide, relay_create_offer_routing.2.2 _ _ (by decide)⟩

/-- Claim C2 (confirmed): a processFrame iteration is admitted exactly when
`isProcessing` is false and at least `DETECTION_INTERVAL` (125 ms) elapsed
since `lastDetectionTime`; on admission the gate records `isProcessing = true`
and `lastDetectionTime = now`; and over any sequence of iterations with no
intervening release at most one admission occurs. -/
theorem frame_gate_single_admit :
    (∀ (s : FrameGate) (now : Int),
      (tryDispatch s now).1 =
        (decide (DETECTION_INTERVAL ≤ now - s.lastDetectionTime) &&
          !s.isProcessing)) ∧
    (∀ (s : FrameGate) (now : Int), (tryDispatch s now).1 = true →
      (tryDispatch s now).2 = ⟨true, now⟩) ∧
    (∀ (s : FrameGate) (nows : List Int), (runDispatch s nows).2 ≤ 1) := by
  refine ⟨?_, ?_, ?_⟩
  · intro s now
    rw [tryDispatch]
    by_cases hc : (decide (DETECTION_INTERVAL ≤ now - s.lastDetectionTime)
        && !s.isProcessing) = true
    · simp [hc]
    · simp only [Bool.not_eq_true] at hc
      simp [hc]
  · intro s now h
    rw [tryDispatch_admitted s now h]
  · exact fun s nows => runDispatch_le_one s nows

/-- Witness for C2 at a concrete admitted dispatch. -/
theorem frame_gate_single_admit_witness :
    (tryDispatch FrameGate.start 200).1 = true ∧
    (tryDispatch FrameGate.start 200).2 = ⟨true, 200⟩ :=
  ⟨by decide, frame_gate_single_admit.2.1 FrameGate.start 200 (by decide)⟩

/-- Claim C3 (confirmed): the percentile of the empty list is 0; on
`[10, 20, 30, 40]` the 50th percentile is 25 and the 95th is 38.5; and for
every list and percentile between 0 and 100 the source's computation agrees
with the specification's linear-interpolation formula. -/
theorem percentile_interpolation :
    (∀ p : ℚ, calculatePercentile [] p = 0) ∧
    calculatePercentile [10, 20, 30, 40] 50 = 25 ∧
    calculatePercentile [10, 20, 30, 40] 95 = 77 / 2 ∧
    (∀ (l : List ℚ) (p : ℚ), 0 ≤ p → p ≤ 100 →
      calculatePercentile l p = specPercentile l p) := by
  refine ⟨?_, ?_, ?_, fun l p hp0 hp1 => calculatePercentile_eq_spec l p hp0 hp1⟩
  · intro p
    simp [calculatePercentile]
  · have hc : (⌈(3 / 2 : ℚ)⌉ : ℤ) = 2 := by norm_num [Int.ceil_eq_iff]
    have ht2 : Int.toNat 2 = 2 := rfl
    norm_num [calculatePercentile, jsMod1, hc, ht2]
  · have hc : (⌈(57 / 20 : ℚ)⌉ : ℤ) = 3 := by norm_num [Int.ceil_eq_iff]
    have ht2 : Int.toNat 2 = 2 := rfl
    have ht3 : Int.toNat 3 = 3 := rfl
    norm_num [calculatePercentile, jsMod1, hc, ht2, ht3]

/-- Witness for C3 at the concrete p95 input. -/
theorem percentile_interpolation_witness :
    (0 : ℚ) ≤ 95 ∧ (95 : ℚ) ≤ 100 ∧
    calculatePercentile [10, 20, 30, 40] 95 = specPercentile [10, 20, 30, 40] 95 :=
  ⟨by norm_num, by norm_num,
    percentile_interpolation.2.2.2 [10, 20, 30, 40] 95 (by norm_num) (by norm_num)⟩

/-- Claim C4 (confirmed): after `n` recordFrame calls the collector holds
exactly the `min n 100` most recent samples in arrival order (FIFO eviction),
the processed-frame counter reads exactly `n` and each call increments it by
one; in particular, after 101 insertions the buffer holds 100 samples whose
oldest is the second sample, while the counter reads 101. -/
theorem ring_buffer_fifo :
    (∀ inputs : List (DetectionResult × Int),
      (runRecord MetricsCollector.start inputs).processedFrames = inputs.length) ∧
    (∀ inputs : List (DetectionResult × Int),
      (runRecord MetricsCollector.start inputs).frameMetrics =
        lastN 100 (inputs.map fun di => mkFrameMetrics di.1 di.2)) ∧
    (∀ (s : MetricsCollector) (d : DetectionResult) (t : Int),
      (recordFrame s d t).processedFrames = s.processedFrames + 1) ∧
    (runRecord MetricsCollector.start inputs101).processedFrames = 101 ∧
    (runRecord MetricsCollector.start inputs101).frameMetrics.length = 100 ∧
    (runRecord MetricsCollector.start inputs101).frameMetrics.head? =
      some (mkFrameMetrics ⟨"f", 1, 1, 1⟩ 1) := by
  refine ⟨?_, ?_, fun s d t => rfl, by decide, by decide, by decide⟩
  · intro inputs
    have h := (runRecord_general inputs MetricsCollector.start
      (by simp [MetricsCollector.start])).2
    simpa [MetricsCollector.start] using h
  · intro inputs
    have h := (runRecord_general inputs MetricsCollector.start
      (by simp [MetricsCollector.start])).1
    simpa [MetricsCollector.start] using h

/-- Claim C5 (confirmed): a run of `n` consecutive signaling-channel failure
cycles performs exactly `min n 5` reconnect attempts, the k-th scheduled with
delay `2 ^ (k-1)` seconds (the value of `2 ^ reconnectAttempts * 1000` ms at
scheduling time); once 5 attempts have failed the status is `disconnected`
and no further attempt is ever performed. -/
theorem reconnect_backoff_cap :
    (∀ n : ℕ, ((runErrorCycles n).2).length = min n 5) ∧
    (∀ n : ℕ, (runErrorCycles n).2 =
      (List.range (min n 5)).map fun k => 2 ^ k * 1000) ∧
    (∀ m : ℕ, (runErrorCycles (6 + m)).2 =
      (List.range 5).map fun k => 2 ^ k * 1000) ∧
    (∀ m : ℕ, (runErrorCycles (6 + m)).1.status = ConnStatus.disconnected) := by
  refine ⟨?_, fun n => (runErrorCycles_spec n).2.1, ?_, ?_⟩
  · intro n
    rw [(runErrorCycles_spec n).2.1]
    simp
  · intro m
    rw [(runErrorCycles_spec (6 + m)).2.1]
    have hmin : min (6 + m) 5 = 5 := by omega
    rw [hmin]
  · intro m
    rw [(runErrorCycles_spec (6 + m)).2.2]
    have hgt : ¬ (6 + m ≤ 5) := by omega
    simp [hgt]

/-- Claim C6, counterexample: four consecutive candidate-application errors
on a fresh instance leave the failure counter at 0 and issue no restart,
contradicting the claim that the counter increments on each candidate-apply
error and that exactly one restart follows the 4th. -/
theorem ice_counter_counterexample :
    (runIce [IceEvent.candError, IceEvent.candError, IceEvent.candError,
      IceEvent.candError]).1.iceFailureCount = 0 ∧
    (runIce [IceEvent.candError, IceEvent.candError, IceEvent.candError,
      IceEvent.candError]).2 = 0 := by
  exact ⟨by decide, by decide⟩

/-- Claim C6, amended: the per-instance counter counts ICE-connection
`failed` events since the last ICE `connected` (which resets it to 0), and
each `failed` event itself issues a restart; a candidate-application error
leaves the counter unchanged and issues a restart only when the counter
already exceeds 3 — in particular, candidate-apply failures alone never
trigger a restart, however many occur; if the restart call throws, the
machine falls back to full re-initialization. -/
theorem ice_failure_policy_amended :
    (∀ evs : List IceEvent,
      (runIce evs).1.iceFailureCount = failedSinceConnected evs) ∧
    (∀ s : IceState, iceStep s IceEvent.iceFailed = (⟨s.iceFailureCount + 1⟩, 1)) ∧
    (∀ s : IceState, iceStep s IceEvent.iceConnected = (⟨0⟩, 0)) ∧
    (∀ s : IceState, iceStep s IceEvent.candError =
      (s, if 3 < s.iceFailureCount then 1 else 0)) ∧
    (∀ n : ℕ, runIce (List.replicate n IceEvent.candError) = (⟨0⟩, 0)) ∧
    restartIceCall true = RestartOutcome.fullReinit ∧
    restartIceCall false = RestartOutcome.restartedInPlace :=
  ⟨runIce_count, fun _ => rfl, fun _ => rfl, fun _ => rfl,
    runIce_candError_only, rfl, rfl⟩

/-- Claim C7, counterexample: a candidate received before any remote
description is applied immediately to the transport — the applied entry is
recorded with the remote-description flag still false, so candidates are not
buffered until the remote description is set. -/
theorem candidate_order_counterexample :
    (runPhone [PhoneMsg.iceCandidate 7]).applied = [(7, false)] ∧
    (runPhone [PhoneMsg.iceCandidate 7]).remoteDescSet = false := by
  exact ⟨by decide, by decide⟩

/-- Claim C7, amended: every received candidate is applied to the transport
immediately on arrival and in arrival order, regardless of whether the remote
description has been set; there is no buffering, and a failed application is
only caught and logged. -/
theorem candidates_applied_immediately :
    ∀ msgs : List PhoneMsg,
      (runPhone msgs).applied.map Prod.fst = candidatesOf msgs := by
  intro msgs
  simpa using runPhone_applied msgs ⟨false, []⟩

/-- Claim C8 (confirmed): in every reachable state of the part_005 registry
each session holds at most one connection per role and no session with zero
connections persists; registering an already-occupied role evicts the prior
same-role handle and replaces it. -/
theorem session_registry_invariant :
    (∀ evs : List RelayEv, ∀ p ∈ (run005 evs).rooms,
      p.2.Pairwise (fun a b => a.role ≠ b.role) ∧ p.2 ≠ []) ∧
    (∀ (r : Room) (c : Conn), r.Pairwise (fun a b => a.role ≠ b.role) →
      register005 [("main-room", r)] c =
        [("main-room", r.eraseP (fun cl => cl.role == c.role) ++ [c])] ∧
      ∀ x ∈ r.eraseP (fun cl => cl.role == c.role), x.role ≠ c.role) := by
  constructor
  · intro evs p hp
    rcases run005_inv evs with hnil | ⟨r, hr, hpw, hne⟩
    · rw [hnil] at hp
      simp at hp
    · rw [hr] at hp
      rw [List.mem_singleton.mp hp]
      exact ⟨hpw, hne⟩
  · intro r c hpw
    exact ⟨register005_eq r c, eraseP_role_roles r c.role hpw⟩

/-- Witness for C8 at a concrete one-registration run. -/
theorem session_registry_invariant_witness :
    ("main-room", [Conn.mk 1 "phone"]) ∈
      (run005 [RelayEv.reg ⟨1, "phone"⟩]).rooms ∧
    ([Conn.mk 1 "phone"] : Room).Pairwise (fun a b => a.role ≠ b.role) ∧
    ([Conn.mk 1 "phone"] : Room) ≠ [] :=
  ⟨by decide, session_registry_invariant.1 [RelayEv.reg ⟨1, "phone"⟩]
    ("main-room", [Conn.mk 1 "phone"]) (by decide)⟩

/-- Claim C9 (confirmed): when the inference collaborator fails,
`detectObjects` returns a well-formed response with an empty detection list
that preserves the request's frame_id, capture_ts and recv_ts; being a total
function, no error propagates. -/
theorem detect_failure_soft :
    ∀ (e : String) (metadata : DetectMeta) (inference_ts : Int),
      detectObjects (Except.error e) metadata inference_ts =
        ⟨metadata.frame_id, metadata.capture_ts, metadata.recv_ts,
          inference_ts, []⟩ :=
  fun _ _ _ => rfl

/-- Claim C10 (confirmed): under both relay variants every registration goes
to the fixed session id `main-room`, so every reachable registry holds at
most one session and that session's key is `main-room`. -/
theorem single_main_room :
    (∀ evs : List RelayEv, (run005 evs).rooms.length ≤ 1 ∧
      ∀ p ∈ (run005 evs).rooms, p.1 = "main-room") ∧
    (∀ evs : List RelayEv, (runIndex evs).rooms.length ≤ 1 ∧
      ∀ p ∈ (runIndex evs).rooms, p.1 = "main-room") := by
  constructor
  · intro evs
    rcases (run005_inv evs).shape with hnil | ⟨r, hr⟩
    · rw [hnil]
      exact ⟨by simp, by simp⟩
    · rw [hr]
      refine ⟨by simp, ?_⟩
      intro p hp
      rw [List.mem_singleton.mp hp]
  · intro evs
    rcases runIndex_shape evs with hnil | ⟨r, hr⟩
    · rw [hnil]
      exact ⟨by simp, by simp⟩
    · rw [hr]
      refine ⟨by simp, ?_⟩
      intro p hp
      rw [List.mem_singleton.mp hp]

/-- Witness for C10 at a concrete one-registration run. -/
theorem single_main_room_witness :
    ("main-room", [Conn.mk 1 "phone"]) ∈
      (run005 [RelayEv.reg ⟨1, "phone"⟩]).rooms ∧
    ("main-room", [Conn.mk 1 "phone"]).1 = "main-room" :=
  ⟨by decide,
    (single_main_room.1 [RelayEv.reg ⟨1, "phone"⟩]).2
      ("main-room", [Conn.mk 1 "phone"]) (by decide)⟩

end WebRTCVLM
